import Mathlib

/-!
Shallow embedding of the signal-backup-decode repository
(src/input.rs, src/frame.rs, src/args.rs).

Byte streams are `List Nat` (each entry a byte value).  The crate-external
primitives (AES-256-CTR keystream generation via openssl, the HMAC-SHA256
final digest, the key derivation, and the protobuf wire decoding) are
abstracted as an `Oracle` of uninterpreted functions; every theorem is
universally quantified over the oracle.  The file `src/decrypter.rs` that
`input.rs` uses is not part of the sources; the `Decrypter` state machine
is modelled from the spec (section 4.2) and marked as such.
-/

namespace SignalBackup

/-- Error taxonomy of the program (anyhow errors / panics, by site). -/
inductive Err where
  | ioError
  | malformedFrame
  | sanityLimit
  | unexpectedHeader
  | invalidHeader
  | macError
  | configError
  | parseError
  deriving DecidableEq, Repr

/-- `LENGTH_HMAC` from decrypter.rs: the 10-byte truncated HMAC trailer. -/
def LENGTH_HMAC : Nat := 10

/-- `MAX_FRAME_SIZE` from input.rs line 139: 100 MiB sanity limit. -/
def MAX_FRAME_SIZE : Nat := 100 * 1024 * 1024

/-- Big-endian u32 from the first four bytes of a list
(`u32::from_be_bytes` / `read_u32::<BigEndian>`). -/
def u32FromBeBytes (l : List Nat) : Nat :=
  (l.getD 0 0) * 2 ^ 24 + (l.getD 1 0) * 2 ^ 16 + (l.getD 2 0) * 2 ^ 8 + l.getD 3 0

/-- Big-endian 4-byte encoding of a u32 value. -/
def u32ToBeBytes (n : Nat) : List Nat :=
  [n / 2 ^ 24 % 256, n / 2 ^ 16 % 256, n / 2 ^ 8 % 256, n % 256]

end SignalBackup

namespace SignalBackup

/-- Protobuf message `Header` (salt, iv are optional bytes). -/
structure HeaderMsg where
  salt : Option (List Nat)
  iv : Option (List Nat)

/-- Protobuf message `SqlStatement.SqlParameter`: all fields optional,
presence tested by the `has_*` accessors in frame.rs. -/
structure SqlParameter where
  stringParamter : Option String
  integerParameter : Option Nat
  doubleParameter : Option Float
  blobParameter : Option (List Nat)
  nullparameter : Option Bool

/-- Protobuf message `SqlStatement`. -/
structure SqlStatement where
  statement : Option String
  parameters : List SqlParameter

/-- Protobuf message `SharedPreference` (carried through opaquely by
frame.rs, which only moves it). -/
structure SharedPreference where
  file : Option String
  key : Option String
  value : Option String

/-- Protobuf message `Attachment`. -/
structure AttachmentMsg where
  rowId : Option Nat
  attachmentId : Option Nat
  length : Option Nat

/-- Protobuf message `DatabaseVersion`. -/
structure VersionMsg where
  version : Option Nat

/-- Protobuf message `Avatar`. -/
structure AvatarMsg where
  name : Option String
  length : Option Nat

/-- Protobuf message `Sticker`. -/
structure StickerMsg where
  rowId : Option Nat
  length : Option Nat

/-- Protobuf message `KeyValue` (fields per the comment in frame.rs). -/
structure KeyValue where
  key : Option String
  blobValue : Option (List Nat)
  booleanValue : Option Bool
  floatValue : Option Float
  integerValue : Option Int
  longValue : Option Int
  stringValue : Option String

/-- Protobuf top-level message `BackupFrame`: nine optional fields.
`end_` models the optional bool field tested with `has_end()`. -/
structure BackupFrame where
  header : Option HeaderMsg
  statement : Option SqlStatement
  preference : Option SharedPreference
  attachment : Option AttachmentMsg
  version : Option VersionMsg
  end_ : Option Bool
  avatar : Option AvatarMsg
  sticker : Option StickerMsg
  keyValue : Option KeyValue

/-- `rusqlite::types::Value`. -/
inductive SqlValue where
  | null
  | integer : Int → SqlValue
  | real : Float → SqlValue
  | text : String → SqlValue
  | blob : List Nat → SqlValue

/-- The `Frame` enum of frame.rs. -/
inductive Frame where
  | header : (salt : List Nat) → (iv : List Nat) → Frame
  | statement : (stmt : String) → (parameter : List SqlValue) → Frame
  | preference : SharedPreference → Frame
  | attachment : (data_length : Nat) → (id : Nat) → (row : Nat) →
      (data : Option (List Nat)) → Frame
  | version : (version : Nat) → Frame
  | end_ : Frame
  | avatar : (data_length : Nat) → (name : String) →
      (data : Option (List Nat)) → Frame
  | sticker : (data_length : Nat) → (row : Nat) →
      (data : Option (List Nat)) → Frame
  | keyValue : KeyValue → Frame

/-- The crate-external primitives, left uninterpreted: `ks key iv i` is
the i-th AES-256-CTR keystream byte for the given key and 16-byte IV
(openssl), `hmacFin macKey absorbed` is the final HMAC-SHA256 digest of
the absorbed bytes (hmac/sha2 crates), `kdf password salt` derives the
(cipher key, mac key) pair (spec section 4.1), and `parse` is the
protobuf wire decoding of a `BackupFrame` (protobuf crate). -/
structure Oracle where
  ks : List Nat → List Nat → Nat → Nat
  hmacFin : List Nat → List Nat → List Nat
  kdf : List Nat → List Nat → List Nat × List Nat
  parse : List Nat → Option BackupFrame

/-- First `n` AES-CTR keystream bytes for a key and IV. -/
def keystream (o : Oracle) (key iv : List Nat) (n : Nat) : List Nat :=
  (List.range n).map (fun i => o.ks key iv i % 256)

/-- AES-256-CTR transform: XOR the bytes with the keystream generated
from the given key and IV (encryption and decryption coincide). -/
def ctrXor (o : Oracle) (key iv c : List Nat) : List Nat :=
  List.zipWith (fun a b => a ^^^ b) c (keystream o key iv c.length)

/-- Modelled from the spec: `src/decrypter.rs` is absent from the
sources (input.rs uses `crate::decrypter::Decrypter`).  State per spec
section 4.2: cipher key, mac key, 16-byte IV whose first four bytes are
a big-endian counter, the per-frame HMAC accumulator (the list of bytes
absorbed since the last reset), and the verify-mac flag. -/
structure Decrypter where
  cipherKey : List Nat
  macKey : List Nat
  iv : List Nat
  hmacAcc : List Nat
  verifyMacFlag : Bool
  deriving DecidableEq, Repr

/-- Modelled from the spec: `Decrypter::new` derives the two keys from
password and salt and starts with the header IV and an empty HMAC
accumulator. -/
def Decrypter.new (o : Oracle) (password salt iv : List Nat)
    (verify_mac : Bool) : Decrypter :=
  { cipherKey := (o.kdf password salt).1
    macKey := (o.kdf password salt).2
    iv := iv
    hmacAcc := []
    verifyMacFlag := verify_mac }

/-- Modelled from the spec: `Decrypter::decrypt` feeds the ciphertext
into the per-frame HMAC accumulator and returns the AES-256-CTR
plaintext computed with the current IV. -/
def Decrypter.decrypt (o : Oracle) (d : Decrypter) (c : List Nat) :
    List Nat × Decrypter :=
  (ctrXor o d.cipherKey d.iv c, { d with hmacAcc := d.hmacAcc ++ c })

/-- Modelled from the spec: `Decrypter::mac_update_with_iv` feeds the
current full 16-byte IV into the HMAC accumulator. -/
def Decrypter.mac_update_with_iv (d : Decrypter) : Decrypter :=
  { d with hmacAcc := d.hmacAcc ++ d.iv }

/-- Modelled from the spec: `Decrypter::verify_mac` finalizes the
HMAC-SHA256, truncates to 10 bytes and compares with the trailer read
from the stream; when verification is disabled it succeeds without
comparing. -/
def Decrypter.verify_mac (o : Oracle) (d : Decrypter) (given : List Nat) :
    Except Err Decrypter :=
  if d.verifyMacFlag = true ∧ (o.hmacFin d.macKey d.hmacAcc).take LENGTH_HMAC ≠ given
  then .error .macError
  else .ok d

/-- Modelled from the spec: `Decrypter::increase_iv` increments the
big-endian 32-bit counter in the first four IV bytes modulo 2^32 and
resets the HMAC accumulator. -/
def Decrypter.increase_iv (d : Decrypter) : Decrypter :=
  { d with
    iv := u32ToBeBytes ((u32FromBeBytes (d.iv.take 4) + 1) % 2 ^ 32) ++ d.iv.drop 4
    hmacAcc := [] }

/-- The raw openssl preview decryption of input.rs lines 113-118: a pure
AES-256-CTR decryption with the decrypter's current key and IV, touching
neither the IV nor the HMAC accumulator. -/
def opensslLenDecrypt (o : Oracle) (d : Decrypter) (c : List Nat) : List Nat :=
  ctrXor o d.cipherKey d.iv c

/-- Rust `u64 as i64` cast, used for `integerParameter` in frame.rs. -/
def i64OfU64 (n : Nat) : Int :=
  if n < 2 ^ 63 then (n : Int) else (n : Int) - 2 ^ 64

/-- Conversion of one `SqlParameter` following the if/else chain in
frame.rs lines 71-83; the final `panic!` ("Parameter type not known")
is modelled as a `malformedFrame` error. -/
def convertParam (p : SqlParameter) : Except Err SqlValue :=
  if p.stringParamter.isSome then .ok (.text (p.stringParamter.getD ""))
  else if p.integerParameter.isSome then .ok (.integer (i64OfU64 (p.integerParameter.getD 0)))
  else if p.doubleParameter.isSome then .ok (.real (p.doubleParameter.getD 0))
  else if p.blobParameter.isSome then .ok (.blob (p.blobParameter.getD []))
  else if p.nullparameter.isSome then .ok .null
  else .error .malformedFrame

/-- The parameter loop of frame.rs lines 69-85 (pushed in order; a
panic aborts the whole conversion). -/
def convertParams : List SqlParameter → Except Err (List SqlValue)
  | [] => .ok []
  | p :: ps =>
    match convertParam p with
    | .error e => .error e
    | .ok v =>
      match convertParams ps with
      | .error e => .error e
      | .ok vs => .ok (v :: vs)

/-- One `if frame.X.is_some() { fields_count += 1; ret = Some(...) }`
branch of `Frame::new`, acting on the `(fields_count, ret)` accumulator. -/
def branchStep {α : Type} (acc : Nat × Option Frame) (field : Option α)
    (mk : α → Frame) : Nat × Option Frame :=
  match field with
  | some a => (acc.1 + 1, some (mk a))
  | none => acc

/-- The tail of `Frame::new` after the statement branch: the remaining
seven field branches, the `fields_count != 1` panic (modelled as
`malformedFrame`) and the final `ret.unwrap()`. -/
def frameNewRest (f : BackupFrame) (acc : Nat × Option Frame) : Except Err Frame :=
  let a3 := branchStep acc f.preference (fun p => .preference p)
  let a4 := branchStep a3 f.attachment
    (fun a => .attachment (a.length.getD 0) (a.attachmentId.getD 0) (a.rowId.getD 0) none)
  let a5 := branchStep a4 f.version (fun v => .version (v.version.getD 0))
  let a6 := branchStep a5 f.end_ (fun _ => .end_)
  let a7 := branchStep a6 f.avatar
    (fun a => .avatar (a.length.getD 0) (a.name.getD "") none)
  let a8 := branchStep a7 f.sticker
    (fun s => .sticker (s.length.getD 0) (s.rowId.getD 0) none)
  let a9 := branchStep a8 f.keyValue (fun kv => .keyValue kv)
  if a9.1 = 1 then
    match a9.2 with
    | some r => .ok r
    | none => .error .malformedFrame
  else .error .malformedFrame

/-- `Frame::new` of frame.rs lines 50-157.  The source counts the
populated top-level fields in order (header, statement, preference,
attachment, version, end, avatar, sticker, keyValue), remembering the
variant built from the last populated one, and panics unless exactly one
was populated; both panic sites are modelled as `malformedFrame`. -/
def Frame.new (f : BackupFrame) : Except Err Frame :=
  let a1 := branchStep (0, none) f.header
    (fun h => .header (h.salt.getD []) (h.iv.getD []))
  match f.statement with
  | some st =>
    match convertParams st.parameters with
    | .error e => .error e
    | .ok ps => frameNewRest f (a1.1 + 1, some (.statement (st.statement.getD "") ps))
  | none => frameNewRest f a1

/-- `TryFrom<Vec<u8>> for Frame` (frame.rs lines 192-200): protobuf
decoding followed by `Frame::new`. -/
def tryFromBytes (o : Oracle) (data : List Nat) : Except Err Frame :=
  match o.parse data with
  | none => .error .parseError
  | some bf => Frame.new bf

/-- The `InputFile` struct of input.rs: the buffered reader is modelled
by the list of not-yet-consumed bytes of the file. -/
structure InputFile where
  input : List Nat
  decrypter : Decrypter
  count_frame : Nat
  count_byte : Nat
  file_bytes : Nat
  deriving DecidableEq, Repr

/-- `Read::read_exact`: take exactly `n` bytes from the stream or fail
with an I/O error when fewer are available. -/
def readExact (n : Nat) (s : List Nat) : Except Err (List Nat × List Nat) :=
  if n ≤ s.length then .ok (s.take n, s.drop n) else .error .ioError

/-- `InputFile::read_data` (input.rs lines 58-97).  For attachments the
given length is the body length (the HMAC trailer follows it); the IV is
fed to the HMAC accumulator first.  For frames the length includes the
trailer.  Errors return the mutated reader state. -/
def InputFile.read_data (o : Oracle) (s : InputFile) (length : Nat)
    (read_attachment : Bool) : Except Err (List Nat) × InputFile :=
  let d0 := if read_attachment then s.decrypter.mac_update_with_iv else s.decrypter
  let n := if read_attachment then length else length - LENGTH_HMAC
  match readExact n s.input with
  | .error e => (.error e, { s with decrypter := d0 })
  | .ok (cdata, r1) =>
    match Decrypter.decrypt o d0 cdata with
    | (data, d1) =>
      match readExact LENGTH_HMAC r1 with
      | .error e => (.error e, { s with input := r1, decrypter := d1 })
      | .ok (hmac, r2) =>
        match Decrypter.verify_mac o d1 hmac with
        | .error e => (.error e, { s with input := r2, decrypter := d1 })
        | .ok d2 =>
          (.ok data,
           { s with
             input := r2
             decrypter := d2.increase_iv
             count_byte :=
               if read_attachment then s.count_byte + length + LENGTH_HMAC
               else s.count_byte + length + 4 })

/-- The tail of `InputFile::read_frame` from line 174 on, entered with
the reader positioned after the encrypted body, the decrypter that has
absorbed the combined ciphertext, the decrypted frame length `len` and
the decrypted payload `data`: read and verify the HMAC trailer,
increment the IV, add `4 + len` to the byte counter, parse the payload,
read the blob body of Attachment/Avatar/Sticker frames, reject a second
Header, and count the frame. -/
def InputFile.readFrameCont (o : Oracle) (s2 : InputFile) (len : Nat)
    (data : List Nat) : Except Err Frame × InputFile :=
  match readExact LENGTH_HMAC s2.input with
  | .error e => (.error e, s2)
  | .ok (hmac, r3) =>
    match Decrypter.verify_mac o s2.decrypter hmac with
    | .error e => (.error e, { s2 with input := r3 })
    | .ok d2 =>
      let s3 : InputFile :=
        { s2 with
          input := r3
          decrypter := d2.increase_iv
          count_byte := s2.count_byte + 4 + len }
      match tryFromBytes o data with
      | .error e => (.error e, s3)
      | .ok fr =>
        match fr with
        | .attachment dl id row _ =>
          (match InputFile.read_data o s3 dl true with
           | (.ok d, s4) =>
             (.ok (.attachment dl id row (some d)),
              { s4 with count_frame := s4.count_frame + 1 })
           | (.error e, s4) => (.error e, s4))
        | .avatar dl name _ =>
          (match InputFile.read_data o s3 dl true with
           | (.ok d, s4) =>
             (.ok (.avatar dl name (some d)),
              { s4 with count_frame := s4.count_frame + 1 })
           | (.error e, s4) => (.error e, s4))
        | .sticker dl row _ =>
          (match InputFile.read_data o s3 dl true with
           | (.ok d, s4) =>
             (.ok (.sticker dl row (some d)),
              { s4 with count_frame := s4.count_frame + 1 })
           | (.error e, s4) => (.error e, s4))
        | .header _ _ => (.error .unexpectedHeader, s3)
        | other => (.ok other, { s3 with count_frame := s3.count_frame + 1 })

/-- `InputFile::read_frame` (input.rs lines 99-206): read the 4
encrypted length bytes, preview-decrypt them with openssl directly
(no decrypter state change), reject lengths above 100 MiB
(`sanityLimit`) or below the MAC length (`malformedFrame`), read the
`len - 10` encrypted body bytes, decrypt length-prefix and body as one
continuous call (which also feeds the HMAC), drop the first four
plaintext bytes, and continue with `readFrameCont`. -/
def InputFile.read_frame (o : Oracle) (s : InputFile) :
    Except Err Frame × InputFile :=
  match readExact 4 s.input with
  | .error e => (.error e, s)
  | .ok (frame_len_bytes, r1) =>
    let len := u32FromBeBytes (opensslLenDecrypt o s.decrypter frame_len_bytes)
    if len > MAX_FRAME_SIZE then (.error .sanityLimit, { s with input := r1 })
    else if len < LENGTH_HMAC then (.error .malformedFrame, { s with input := r1 })
    else
      match readExact (len - LENGTH_HMAC) r1 with
      | .error e => (.error e, { s with input := r1 })
      | .ok (encrypted_data, r2) =>
        match Decrypter.decrypt o s.decrypter (frame_len_bytes ++ encrypted_data) with
        | (all_decrypted, d1) =>
          InputFile.readFrameCont o { s with input := r2, decrypter := d1 } len
            (all_decrypted.drop 4)

/-- `<InputFile as Iterator>::next` (input.rs lines 224-235): `End`
terminates the iteration; other frames and errors are yielded. -/
def InputFile.next (o : Oracle) (s : InputFile) :
    Option (Except Err Frame) × InputFile :=
  match InputFile.read_frame o s with
  | (.ok .end_, s') => (none, s')
  | (.ok x, s') => (some (.ok x), s')
  | (.error e, s') => (some (.error e), s')

/-- `InputFile::new` (input.rs lines 18-56): read the unencrypted
big-endian length and the unencrypted first frame, require it to be a
Header, build the decrypter from password/salt/iv, and initialize the
counters (`count_byte = len + 4 + 16`). -/
def InputFile.new (o : Oracle) (input password : List Nat)
    (verify_mac : Bool) (file_bytes : Nat) : Except Err InputFile :=
  match readExact 4 input with
  | .error e => .error e
  | .ok (lenB, r1) =>
    let len := u32FromBeBytes lenB
    match readExact len r1 with
    | .error e => .error e
    | .ok (frameB, r2) =>
      match tryFromBytes o frameB with
      | .error e => .error e
      | .ok (.header salt iv) =>
        .ok
          { input := r2
            decrypter := Decrypter.new o password salt iv verify_mac
            count_frame := 1
            count_byte := len + 4 + 16
            file_bytes := file_bytes }
      | .ok _ => .error .invalidHeader

/-- The password handling slice of `Config::new` (args.rs lines
133-139): `retain` keeps only ASCII digit characters, the result is
converted to its UTF-8 bytes, and any length other than 30 is a
configuration error. -/
def Config.new_password (password : List Char) : Except Err (List Nat) :=
  let retained := password.filter (fun c => decide ('0' ≤ c) && decide (c ≤ '9'))
  let bytes := retained.map Char.toNat
  if bytes.length ≠ 30 then .error .configError else .ok bytes

/-- Number of populated top-level fields of a `BackupFrame`, among
{header, statement, preference, attachment, version, end, avatar,
sticker, keyValue}. -/
def countPopulated (f : BackupFrame) : Nat :=
  (if f.header.isSome then 1 else 0) + (if f.statement.isSome then 1 else 0) +
  (if f.preference.isSome then 1 else 0) + (if f.attachment.isSome then 1 else 0) +
  (if f.version.isSome then 1 else 0) + (if f.end_.isSome then 1 else 0) +
  (if f.avatar.isSome then 1 else 0) + (if f.sticker.isSome then 1 else 0) +
  (if f.keyValue.isSome then 1 else 0)

/-- A parameter has one of the five recognized shapes. -/
def paramKnown (p : SqlParameter) : Prop :=
  p.stringParamter.isSome ∨ p.integerParameter.isSome ∨ p.doubleParameter.isSome ∨
  p.blobParameter.isSome ∨ p.nullparameter.isSome

/-- Every parameter of a populated statement field has a recognized
shape. -/
def statementParamsOk (f : BackupFrame) : Prop :=
  ∀ st, f.statement = some st → ∀ p ∈ st.parameters, paramKnown p

/-- The produced `Frame` variant corresponds to the populated top-level
field of the record it came from. -/
def variantMatches (f : BackupFrame) : Frame → Prop
  | .header _ _ => f.header.isSome
  | .statement _ _ => f.statement.isSome
  | .preference _ => f.preference.isSome
  | .attachment _ _ _ _ => f.attachment.isSome
  | .version _ => f.version.isSome
  | .end_ => f.end_.isSome
  | .avatar _ _ _ => f.avatar.isSome
  | .sticker _ _ _ => f.sticker.isSome
  | .keyValue _ => f.keyValue.isSome

/-- The passphrase format claimed by the spec: after stripping
whitespace, exactly 30 ASCII digits remain. -/
def specPassphraseFormat (password : List Char) : Prop :=
  (password.filter (fun c => !c.isWhitespace)).length = 30 ∧
  ∀ c ∈ password.filter (fun c => !c.isWhitespace), c.isDigit

/-- A record with no populated field. -/
def BackupFrame.empty : BackupFrame :=
  ⟨none, none, none, none, none, none, none, none, none⟩

/-- A record whose only populated field is `attachment`. -/
def onlyAttachment (a : AttachmentMsg) : BackupFrame :=
  { BackupFrame.empty with attachment := some a }

/-- A record whose only populated field is `avatar`. -/
def onlyAvatar (a : AvatarMsg) : BackupFrame :=
  { BackupFrame.empty with avatar := some a }

/-- A record whose only populated field is `sticker`. -/
def onlySticker (s : StickerMsg) : BackupFrame :=
  { BackupFrame.empty with sticker := some s }

/-- A record whose only populated field is `version`. -/
def onlyVersion (v : VersionMsg) : BackupFrame :=
  { BackupFrame.empty with version := some v }

/-- A record whose only populated field is `header`. -/
def onlyHeader (h : HeaderMsg) : BackupFrame :=
  { BackupFrame.empty with header := some h }

/-- A record whose only populated field is `end`. -/
def onlyEnd : BackupFrame :=
  { BackupFrame.empty with end_ := some true }

/-- A record whose only populated field is a statement containing a
single parameter with none of the five recognized shapes. -/
def onlyBadStatement : BackupFrame :=
  { BackupFrame.empty with
    statement := some ⟨some "x", [⟨none, none, none, none, none⟩]⟩ }

/-- Frames that carry no blob body. -/
def noBlob : Frame → Prop
  | .attachment _ _ _ _ => False
  | .avatar _ _ _ => False
  | .sticker _ _ _ => False
  | _ => True

/-- A concrete oracle for witnesses: a zero keystream, an all-zero HMAC
digest, empty derived keys and a parser that always decodes an
end-record. -/
def oracle0 : Oracle :=
  { ks := fun _ _ _ => 0
    hmacFin := fun _ _ => List.replicate 10 0
    kdf := fun _ _ => ([], [])
    parse := fun _ => some onlyEnd }

/-- A concrete oracle whose parser always decodes a header record. -/
def oracleHdr : Oracle :=
  { oracle0 with parse := fun _ => some (onlyHeader ⟨none, none⟩) }

/-- A concrete decrypter state for witnesses. -/
def decrypter0 : Decrypter := ⟨[], [], List.replicate 16 0, [], true⟩

/-- A reader at end of file. -/
def fileEmpty : InputFile :=
  { input := [], decrypter := decrypter0, count_frame := 1, count_byte := 20,
    file_bytes := 0 }

/-- A reader whose remaining stream is one encrypted frame (length 10,
empty body, all-zero MAC) that decodes to an End record under
`oracle0`. -/
def fileEnd : InputFile :=
  { input := [0, 0, 0, 10] ++ List.replicate 10 0
    decrypter := decrypter0, count_frame := 1, count_byte := 20,
    file_bytes := 100 }

/-- A reader whose remaining stream holds a 3-byte blob body followed by
an all-zero MAC trailer. -/
def fileBlob : InputFile :=
  { input := List.replicate 13 0
    decrypter := decrypter0, count_frame := 2, count_byte := 34,
    file_bytes := 100 }

/-- The reader state produced by bootstrapping `oracleHdr` on the
four-byte input `[0, 0, 0, 0]`. -/
def fileHdr : InputFile :=
  { input := [], decrypter := Decrypter.new oracleHdr [] [] [] true,
    count_frame := 1, count_byte := 20, file_bytes := 0 }

/-- A password refused by the spec's format (a non-digit, non-whitespace
character followed by 30 digits). -/
def pwBad : List Char := 'a' :: List.replicate 30 '0'

end SignalBackup

namespace SignalBackup

theorem convertParam_error {p : SqlParameter} {e : Err}
    (h : convertParam p = .error e) : e = .malformedFrame := by
  unfold convertParam at h
  split_ifs at h
  all_goals simp_all

theorem convertParams_error {ps : List SqlParameter} {e : Err}
    (h : convertParams ps = .error e) : e = .malformedFrame := by
  induction ps with
  | nil => simp [convertParams] at h
  | cons p ps ih =>
    rw [convertParams] at h
    cases hcp : convertParam p with
    | error e' =>
      rw [hcp] at h
      cases h
      exact convertParam_error hcp
    | ok v =>
      rw [hcp] at h
      cases hcps : convertParams ps with
      | error e' =>
        rw [hcps] at h
        cases h
        exact ih hcps
      | ok vs => rw [hcps] at h; cases h

theorem convertParam_ok {p : SqlParameter} (h : paramKnown p) :
    ∃ v, convertParam p = .ok v := by
  unfold convertParam
  split_ifs with h1 h2 h3 h4 h5
  · exact ⟨_, rfl⟩
  · exact ⟨_, rfl⟩
  · exact ⟨_, rfl⟩
  · exact ⟨_, rfl⟩
  · exact ⟨_, rfl⟩
  · exact absurd h (by simp [paramKnown, h1, h2, h3, h4, h5])

theorem convertParams_ok {ps : List SqlParameter}
    (h : ∀ p ∈ ps, paramKnown p) : ∃ vs, convertParams ps = .ok vs := by
  induction ps with
  | nil => exact ⟨[], rfl⟩
  | cons p ps ih =>
    obtain ⟨v, hv⟩ := convertParam_ok (h p (by simp))
    obtain ⟨vs, hvs⟩ := ih (fun q hq => h q (by simp [hq]))
    exact ⟨v :: vs, by rw [convertParams, hv, hvs]⟩

set_option maxHeartbeats 2000000

/-- C2: a decoded record with zero or more than one populated top-level
field fails to parse with a MalformedFrame error (the panic in
`Frame::new`); with exactly one populated field — and, for a statement,
parameters of recognized shape — parsing returns the Frame variant
corresponding to the populated field. -/
theorem claim_C2_amended (f : BackupFrame) :
    (countPopulated f ≠ 1 → Frame.new f = .error .malformedFrame) ∧
    (countPopulated f = 1 → statementParamsOk f →
      ∃ fr, Frame.new f = .ok fr ∧ variantMatches f fr) := by
  obtain ⟨h, st, pr, at_, v, e, av, sk, kv⟩ := f
  constructor
  · intro hne
    cases st with
    | some stv =>
      cases hcp : convertParams stv.parameters with
      | error e' =>
        have := convertParams_error hcp
        subst this
        simp [Frame.new, hcp]
      | ok vs =>
        simp only [countPopulated] at hne
        cases h <;> cases pr <;> cases at_ <;> cases v <;> cases e <;> cases av <;>
          cases sk <;> cases kv <;>
          simp_all [Frame.new, frameNewRest, branchStep, hcp]
    | none =>
      simp only [countPopulated] at hne
      cases h <;> cases pr <;> cases at_ <;> cases v <;> cases e <;> cases av <;>
        cases sk <;> cases kv <;>
        simp_all [Frame.new, frameNewRest, branchStep]
  · intro hone hpok
    cases st with
    | some stv =>
      have hps : ∀ p ∈ stv.parameters, paramKnown p := hpok stv rfl
      obtain ⟨vs, hcp⟩ := convertParams_ok hps
      simp only [countPopulated] at hone
      cases h <;> cases pr <;> cases at_ <;> cases v <;> cases e <;> cases av <;>
        cases sk <;> cases kv <;>
        simp_all [Frame.new, frameNewRest, branchStep, hcp, variantMatches]
    | none =>
      simp only [countPopulated] at hone
      cases h <;> cases pr <;> cases at_ <;> cases v <;> cases e <;> cases av <;>
        cases sk <;> cases kv <;>
        simp_all [Frame.new, frameNewRest, branchStep, variantMatches]

/-- C2 counterexample: a record with exactly one populated field (a
statement) whose parameter has no recognized shape does not parse into
a Frame variant; `Frame::new` fails (panics) instead, contradicting the
claim that exactly one populated field always yields the corresponding
variant. -/
theorem claim_C2_counterexample :
    countPopulated onlyBadStatement = 1 ∧
    Frame.new onlyBadStatement = .error .malformedFrame :=
  ⟨rfl, rfl⟩

/-- C2 witness: the amended theorem applied to a concrete record whose
only populated field is `end`. -/
theorem claim_C2_witness :
    ∃ fr, Frame.new onlyEnd = .ok fr ∧ variantMatches onlyEnd fr :=
  (claim_C2_amended onlyEnd).2 rfl
    (by intro st hst; cases hst)

theorem ctrXor_length (o : Oracle) (k iv c : List Nat) :
    (ctrXor o k iv c).length = c.length := by
  simp [ctrXor, keystream]

theorem ctrXor_append_take (o : Oracle) (k iv : List Nat) (c b : List Nat) :
    (ctrXor o k iv (c ++ b)).take c.length = ctrXor o k iv c := by
  simp only [ctrXor, List.take_zipWith, keystream, List.length_append]
  rw [List.take_left]
  congr 1
  rw [← List.map_take, List.take_range, Nat.min_eq_left (Nat.le_add_right _ _)]

theorem readExact_ok {n : Nat} {s a r : List Nat}
    (h : readExact n s = .ok (a, r)) :
    n ≤ s.length ∧ a = s.take n ∧ r = s.drop n ∧ a.length = n := by
  unfold readExact at h
  split_ifs at h with hle
  · cases h
    exact ⟨hle, rfl, rfl, by simp [hle]⟩

theorem readExact_of_le {n : Nat} {s : List Nat} (h : n ≤ s.length) :
    readExact n s = .ok (s.take n, s.drop n) := by
  simp [readExact, h]

theorem readFrameCont_no_header {o : Oracle} {s2 : InputFile} {len : Nat}
    {data : List Nat} {f : Frame} {s' : InputFile}
    (h : InputFile.readFrameCont o s2 len data = (.ok f, s')) :
    ∀ salt iv, f ≠ .header salt iv := by
  unfold InputFile.readFrameCont at h
  split at h
  · simp at h
  · split at h
    · simp at h
    · dsimp only at h
      split at h
      · simp at h
      · split at h
        · split at h
          · simp only [Prod.mk.injEq, Except.ok.injEq] at h
            intro salt iv hne
            rw [← h.1] at hne
            cases hne
          · simp at h
        · split at h
          · simp only [Prod.mk.injEq, Except.ok.injEq] at h
            intro salt iv hne
            rw [← h.1] at hne
            cases hne
          · simp at h
        · split at h
          · simp only [Prod.mk.injEq, Except.ok.injEq] at h
            intro salt iv hne
            rw [← h.1] at hne
            cases hne
          · simp at h
        · simp at h
        · rename_i hna hnav hns hnh
          simp only [Prod.mk.injEq, Except.ok.injEq] at h
          intro salt iv hne
          rw [← h.1] at hne
          exact hnh salt iv hne

theorem read_frame_no_header {o : Oracle} {s : InputFile} {f : Frame}
    {s' : InputFile} (h : InputFile.read_frame o s = (.ok f, s')) :
    ∀ salt iv, f ≠ .header salt iv := by
  unfold InputFile.read_frame at h
  split at h
  · simp at h
  · dsimp only at h
    split at h
    · simp at h
    · split at h
      · simp at h
      · split at h
        · simp at h
        · exact readFrameCont_no_header h

/-- C3 counterexample: at end of file, `read_frame` fails; the
iterator yields that error, and a second call to `next` yields the
error again instead of `None` (the iterator is not fused), refuting the
claim that every subsequent call returns `None`. -/
theorem claim_C3_counterexample :
    (InputFile.next oracle0 fileEmpty).1 = some (.error .ioError) ∧
    (InputFile.next oracle0 (InputFile.next oracle0 fileEmpty).2).1 =
      some (.error .ioError) :=
  ⟨rfl, rfl⟩

/-- C3 amended: when `read_frame` fails, `next` yields `Some(Err)` with
the mutated reader state; the iterator is not fused, so a subsequent
call runs `read_frame` again and may yield further errors. -/
theorem claim_C3_amended (o : Oracle) (s : InputFile) (e : Err) (s' : InputFile)
    (h : InputFile.read_frame o s = (.error e, s')) :
    InputFile.next o s = (some (.error e), s') := by
  unfold InputFile.next
  rw [h]

/-- C3 witness: the amended theorem at the end-of-file reader. -/
theorem claim_C3_witness :
    InputFile.next oracle0 fileEmpty = (some (.error .ioError), fileEmpty) :=
  claim_C3_amended oracle0 fileEmpty .ioError fileEmpty rfl

/-- C9: when `read_frame` returns an End frame the iterator returns
`None` (with the same final state) without yielding the frame, and no
call of `next` ever yields an End frame to the consumer. -/
theorem claim_C9 (o : Oracle) (s s' : InputFile) :
    (InputFile.read_frame o s = (.ok .end_, s') →
      InputFile.next o s = (none, s')) ∧
    (InputFile.next o s).1 ≠ some (.ok .end_) := by
  constructor
  · intro h
    unfold InputFile.next
    rw [h]
  · unfold InputFile.next
    rcases hrf : InputFile.read_frame o s with ⟨res, s''⟩
    cases res with
    | ok f => cases f <;> simp
    | error e => simp

/-- C9 witness: a concrete stream whose next frame is End makes the
iterator stop. -/
theorem claim_C9_witness :
    InputFile.next oracle0 fileEnd =
      (none, (InputFile.read_frame oracle0 fileEnd).2) :=
  (claim_C9 oracle0 fileEnd _).1 rfl

/-- C6: construction fails with an invalid-header error when the first
decoded frame is not a Header; inside a later frame, a decoded Header
aborts `read_frame` with the unexpected-header error; consequently
`read_frame` never returns a Header frame. -/
theorem claim_C6 :
    (∀ (o : Oracle) (input password lenB r1 frameB r2 : List Nat) (vm : Bool)
        (fb : Nat) (f : Frame),
      readExact 4 input = .ok (lenB, r1) →
      readExact (u32FromBeBytes lenB) r1 = .ok (frameB, r2) →
      tryFromBytes o frameB = .ok f →
      (∀ salt iv, f ≠ .header salt iv) →
      InputFile.new o input password vm fb = .error .invalidHeader) ∧
    (∀ (o : Oracle) (s2 : InputFile) (len : Nat) (data hm r3 salt iv : List Nat)
        (d2 : Decrypter),
      readExact LENGTH_HMAC s2.input = .ok (hm, r3) →
      Decrypter.verify_mac o s2.decrypter hm = .ok d2 →
      tryFromBytes o data = .ok (.header salt iv) →
      InputFile.readFrameCont o s2 len data =
        (.error .unexpectedHeader,
         { s2 with input := r3, decrypter := d2.increase_iv,
                   count_byte := s2.count_byte + 4 + len })) ∧
    (∀ (o : Oracle) (s s' : InputFile) (f : Frame),
      InputFile.read_frame o s = (.ok f, s') → ∀ salt iv, f ≠ .header salt iv) := by
  refine ⟨?_, ?_, ?_⟩
  · intro o input password lenB r1 frameB r2 vm fb f h1 h2 h3 hne
    unfold InputFile.new
    rw [h1]
    dsimp only
    rw [h2]
    dsimp only
    rw [h3]
    cases f
    case header salt iv => exact absurd rfl (hne salt iv)
    all_goals rfl
  · intro o s2 len data hm r3 salt iv d2 h1 h2 h3
    unfold InputFile.readFrameCont
    rw [h1]
    dsimp only
    rw [h2]
    dsimp only
    rw [h3]
  · intro o s s' f h
    exact read_frame_no_header h

/-- C6 witness: a first frame decoding to End makes construction fail
with the invalid-header error. -/
theorem claim_C6_witness :
    InputFile.new oracle0 [0, 0, 0, 0] [] true 0 = .error .invalidHeader :=
  claim_C6.1 oracle0 [0, 0, 0, 0] [] [0, 0, 0, 0] [] [] [] true 0 .end_
    rfl rfl rfl (fun _ _ h => Frame.noConfusion h)

theorem retain_pred_eq_isDigit :
    (fun c => decide ('0' ≤ c) && decide (c ≤ '9')) =
      (fun c : Char => c.isDigit) := by
  funext c
  simp only [Char.isDigit]
  rfl

theorem isDigit_not_isWhitespace {c : Char} (h : c.isDigit = true) :
    c.isWhitespace = false := by
  simp only [Char.isDigit, ge_iff_le, decide_eq_true_eq, Bool.and_eq_true] at h
  simp only [Char.isWhitespace]
  have h1 : c ≠ ' ' := by rintro rfl; revert h; decide
  have h2 : c ≠ '\t' := by rintro rfl; revert h; decide
  have h3 : c ≠ '\r' := by rintro rfl; revert h; decide
  have h4 : c ≠ '\n' := by rintro rfl; revert h; decide
  simp [h1, h2, h3, h4]

theorem filter_digit_eq_stripped {p : List Char}
    (h : ∀ c ∈ p.filter (fun c => !c.isWhitespace), c.isDigit = true) :
    p.filter (fun c : Char => c.isDigit) = p.filter (fun c => !c.isWhitespace) := by
  induction p with
  | nil => rfl
  | cons a p ih =>
    by_cases hw : a.isWhitespace = true
    · have hd : a.isDigit = false := by
        by_contra hcon
        simp only [Bool.not_eq_false] at hcon
        rw [isDigit_not_isWhitespace hcon] at hw
        cases hw
      rw [List.filter_cons, List.filter_cons]
      simp only [hd, hw]
      simp only [Bool.not_true, if_false]
      exact ih (by intro c hc; exact h c (by simp [List.filter_cons, hw, hc]))
    · have hw' : (!a.isWhitespace) = true := by
        simp only [Bool.not_eq_true] at hw
        simp [hw]
      have hd : a.isDigit = true := h a (by simp [List.filter_cons, hw'])
      rw [List.filter_cons, List.filter_cons]
      simp only [hd, hw', if_true]
      have ih' := ih (by
        intro c hc
        exact h c (by simp [List.filter_cons, hw', List.mem_cons, hc]))
      rw [ih']

/-- C7 counterexample: a password that is not 30 ASCII digits after
whitespace stripping (it contains a letter) is nevertheless accepted,
because the code silently discards every non-digit character instead of
rejecting invalid characters. -/
theorem claim_C7_counterexample :
    ¬ specPassphraseFormat pwBad ∧
    Config.new_password pwBad = .ok (List.replicate 30 48) := by
  constructor
  · intro h
    have := h.1
    revert this
    decide
  · rfl

/-- C7 amended: construction fails with a ConfigError unless, after
removing every non-digit character, exactly 30 digits remain; every
spec-conforming passphrase (30 digits plus whitespace) is accepted, and
non-digit characters are silently discarded rather than rejected. -/
theorem claim_C7_amended (p : List Char) :
    (specPassphraseFormat p → ∃ bs, Config.new_password p = .ok bs) ∧
    ((∃ bs, Config.new_password p = .ok bs) ↔
      (p.filter (fun c : Char => c.isDigit)).length = 30) ∧
    (∀ c, c.isDigit = false →
      Config.new_password (c :: p) = Config.new_password p) := by
  refine ⟨?_, ?_, ?_⟩
  · rintro ⟨hlen, hdig⟩
    have heq := filter_digit_eq_stripped (p := p) hdig
    unfold Config.new_password
    rw [retain_pred_eq_isDigit, heq]
    simp [hlen]
  · unfold Config.new_password
    rw [retain_pred_eq_isDigit]
    by_cases hl : (p.filter (fun c : Char => c.isDigit)).length = 30
    · simp [hl]
    · simp [hl]
  · intro c hc
    unfold Config.new_password
    rw [retain_pred_eq_isDigit, List.filter_cons]
    simp [hc]

/-- C7 witness: thirty digits are accepted. -/
theorem claim_C7_witness :
    ∃ bs, Config.new_password (List.replicate 30 '0') = .ok bs :=
  (claim_C7_amended (List.replicate 30 '0')).1 (by constructor <;> decide)

/-- C10: a populated variant with omitted optional scalar fields parses
with zero or empty defaults: missing length, attachmentId, rowId and
version decode to 0, a missing avatar name and missing header salt/iv
decode to empty, and blob-bearing variants start with no data. -/
theorem claim_C10 :
    (∀ a : AttachmentMsg, Frame.new (onlyAttachment a) =
      .ok (.attachment (a.length.getD 0) (a.attachmentId.getD 0) (a.rowId.getD 0) none)) ∧
    (∀ a : AvatarMsg, Frame.new (onlyAvatar a) =
      .ok (.avatar (a.length.getD 0) (a.name.getD "") none)) ∧
    (∀ s : StickerMsg, Frame.new (onlySticker s) =
      .ok (.sticker (s.length.getD 0) (s.rowId.getD 0) none)) ∧
    (∀ v : VersionMsg, Frame.new (onlyVersion v) =
      .ok (.version (v.version.getD 0))) ∧
    (∀ h : HeaderMsg, Frame.new (onlyHeader h) =
      .ok (.header (h.salt.getD []) (h.iv.getD []))) ∧
    Frame.new (onlyAttachment ⟨none, none, none⟩) = .ok (.attachment 0 0 0 none) ∧
    Frame.new (onlyAvatar ⟨none, none⟩) = .ok (.avatar 0 "" none) ∧
    Frame.new (onlySticker ⟨none, none⟩) = .ok (.sticker 0 0 none) ∧
    Frame.new (onlyVersion ⟨none⟩) = .ok (.version 0) ∧
    Frame.new (onlyHeader ⟨none, none⟩) = .ok (.header [] []) :=
  ⟨fun _ => rfl, fun _ => rfl, fun _ => rfl, fun _ => rfl, fun _ => rfl,
   rfl, rfl, rfl, rfl, rfl⟩

/-- C1: under the conditions where `read_frame` reaches the committed
decryption (4 length bytes read, decrypted length in the accepted
range, body read), the combined decrypt call receives the length-prefix
ciphertext concatenated with the body ciphertext in a single call made
with the original decrypter state (the openssl preview changed neither
the IV nor the HMAC accumulator), the continuation receives the
combined plaintext minus its first four bytes as the payload, the first
four plaintext bytes of the combined decryption equal the previewed
length bytes, and the HMAC accumulator absorbs the prefix and the body. -/
theorem claim_C1 (o : Oracle) (s : InputFile) (flb r1 body r2 : List Nat)
    (len : Nat)
    (hread : readExact 4 s.input = .ok (flb, r1))
    (hlen : len = u32FromBeBytes (opensslLenDecrypt o s.decrypter flb))
    (hlo : LENGTH_HMAC ≤ len) (hhi : len ≤ MAX_FRAME_SIZE)
    (hbody : readExact (len - LENGTH_HMAC) r1 = .ok (body, r2)) :
    InputFile.read_frame o s =
      InputFile.readFrameCont o
        { s with input := r2,
                 decrypter := (Decrypter.decrypt o s.decrypter (flb ++ body)).2 }
        len ((Decrypter.decrypt o s.decrypter (flb ++ body)).1.drop 4) ∧
    (Decrypter.decrypt o s.decrypter (flb ++ body)).1.take 4 =
      opensslLenDecrypt o s.decrypter flb ∧
    (Decrypter.decrypt o s.decrypter (flb ++ body)).2.hmacAcc =
      s.decrypter.hmacAcc ++ (flb ++ body) := by
  obtain ⟨-, -, -, hflb⟩ := readExact_ok hread
  refine ⟨?_, ?_, rfl⟩
  · unfold InputFile.read_frame
    rw [hread]
    dsimp only
    rw [← hlen]
    rw [if_neg (by unfold MAX_FRAME_SIZE at *; omega),
        if_neg (by unfold LENGTH_HMAC at *; omega)]
    rw [hbody]
  · rw [show (4 : Nat) = flb.length from hflb.symm]
    exact ctrXor_append_take o s.decrypter.cipherKey s.decrypter.iv flb body

/-- C1 witness: the preview of the encrypted length equals the first
four plaintext bytes of the committed combined decryption on a concrete
frame. -/
theorem claim_C1_witness :
    (Decrypter.decrypt oracle0 decrypter0 ([0, 0, 0, 10] ++ [])).1.take 4 =
      opensslLenDecrypt oracle0 decrypter0 [0, 0, 0, 10] :=
  (claim_C1 oracle0 fileEnd [0, 0, 0, 10] (List.replicate 10 0) []
    (List.replicate 10 0) 10 rfl (by decide) (by decide) (by decide) rfl).2.1

/-- C4: after the 4-byte length prefix decrypts to L, `read_frame`
rejects L above 100 MiB with the sanity-limit error and L below the
10-byte MAC length with the malformed-frame error; for L in between it
reads exactly L - 10 bytes of encrypted body and then reads exactly the
10-byte MAC trailer. -/
theorem claim_C4 (o : Oracle) (s : InputFile) (flb r1 : List Nat)
    (hread : readExact 4 s.input = .ok (flb, r1)) :
    (u32FromBeBytes (opensslLenDecrypt o s.decrypter flb) > MAX_FRAME_SIZE →
      InputFile.read_frame o s = (.error .sanityLimit, { s with input := r1 })) ∧
    (u32FromBeBytes (opensslLenDecrypt o s.decrypter flb) < LENGTH_HMAC →
      InputFile.read_frame o s = (.error .malformedFrame, { s with input := r1 })) ∧
    (∀ len, len = u32FromBeBytes (opensslLenDecrypt o s.decrypter flb) →
      LENGTH_HMAC ≤ len → len ≤ MAX_FRAME_SIZE →
      len - LENGTH_HMAC + LENGTH_HMAC ≤ r1.length →
      InputFile.read_frame o s =
        InputFile.readFrameCont o
          { s with
            input := r1.drop (len - LENGTH_HMAC)
            decrypter :=
              (Decrypter.decrypt o s.decrypter
                (flb ++ r1.take (len - LENGTH_HMAC))).2 }
          len
          ((Decrypter.decrypt o s.decrypter
            (flb ++ r1.take (len - LENGTH_HMAC))).1.drop 4) ∧
      readExact LENGTH_HMAC (r1.drop (len - LENGTH_HMAC)) =
        .ok ((r1.drop (len - LENGTH_HMAC)).take LENGTH_HMAC,
             (r1.drop (len - LENGTH_HMAC)).drop LENGTH_HMAC)) := by
  refine ⟨?_, ?_, ?_⟩
  · intro hbig
    unfold InputFile.read_frame
    rw [hread]
    dsimp only
    rw [if_pos hbig]
  · intro hsmall
    unfold InputFile.read_frame
    rw [hread]
    dsimp only
    rw [if_neg (by unfold MAX_FRAME_SIZE LENGTH_HMAC at *; omega),
        if_pos hsmall]
  · intro len hlen hlo hhi hroom
    constructor
    · unfold InputFile.read_frame
      rw [hread]
      dsimp only
      rw [← hlen]
      rw [if_neg (by unfold MAX_FRAME_SIZE at *; omega),
          if_neg (by unfold LENGTH_HMAC at *; omega)]
      rw [readExact_of_le (by omega)]
    · exact readExact_of_le (by
        rw [List.length_drop]
        omega)

/-- C4 witness: a concrete frame of decrypted length 10 (empty body)
is accepted and its body and MAC reads consume exactly the declared
byte counts. -/
theorem claim_C4_witness :
    InputFile.read_frame oracle0 fileEnd =
      InputFile.readFrameCont oracle0
        { fileEnd with
          input := (List.replicate 10 0 : List Nat).drop (10 - LENGTH_HMAC)
          decrypter :=
            (Decrypter.decrypt oracle0 fileEnd.decrypter
              ([0, 0, 0, 10] ++
                (List.replicate 10 0 : List Nat).take (10 - LENGTH_HMAC))).2 }
        10
        ((Decrypter.decrypt oracle0 fileEnd.decrypter
          ([0, 0, 0, 10] ++
            (List.replicate 10 0 : List Nat).take (10 - LENGTH_HMAC))).1.drop 4) :=
  ((claim_C4 oracle0 fileEnd [0, 0, 0, 10] (List.replicate 10 0) rfl).2.2 10
    (by decide) (by decide) (by decide) (by decide)).1

theorem decrypt_fst_length (o : Oracle) (d : Decrypter) (c : List Nat) :
    (Decrypter.decrypt o d c).1.length = c.length := by
  simp [Decrypter.decrypt, ctrXor_length]

theorem read_data_ok_length {o : Oracle} {s : InputFile} {n : Nat}
    {d : List Nat} {s' : InputFile}
    (h : InputFile.read_data o s n true = (.ok d, s')) : d.length = n := by
  unfold InputFile.read_data at h
  dsimp only at h
  split at h
  · simp at h
  · rename_i cdata r1 heq
    obtain ⟨-, -, -, hlen⟩ := readExact_ok heq
    rw [if_pos rfl] at hlen
    split at h
    · simp at h
    · split at h
      · simp at h
      · simp only [Prod.mk.injEq, Except.ok.injEq] at h
        rw [← h.1, decrypt_fst_length, hlen]

theorem read_data_attachment_eq (o : Oracle) (s : InputFile) (D : Nat)
    (d2 : Decrypter)
    (hroom : D + LENGTH_HMAC ≤ s.input.length)
    (hver : Decrypter.verify_mac o
      (Decrypter.decrypt o s.decrypter.mac_update_with_iv (s.input.take D)).2
      ((s.input.drop D).take LENGTH_HMAC) = .ok d2) :
    InputFile.read_data o s D true =
      (.ok (Decrypter.decrypt o s.decrypter.mac_update_with_iv (s.input.take D)).1,
       { s with input := (s.input.drop D).drop LENGTH_HMAC
                decrypter := d2.increase_iv
                count_byte := s.count_byte + D + LENGTH_HMAC }) := by
  unfold InputFile.read_data
  rw [if_pos rfl, if_pos rfl]
  dsimp only
  rw [readExact_of_le (by omega)]
  dsimp only
  rw [readExact_of_le (by
    rw [List.length_drop]
    omega)]
  dsimp only
  rw [hver]
  rw [if_pos rfl]

theorem readFrameCont_blob {o : Oracle} {s2 : InputFile} {len : Nat}
    {data : List Nat} {f : Frame} {s' : InputFile}
    (h : InputFile.readFrameCont o s2 len data = (.ok f, s')) :
    (∀ dl id row dat, f = .attachment dl id row dat →
      ∃ bs, dat = some bs ∧ bs.length = dl) ∧
    (∀ dl nm dat, f = .avatar dl nm dat →
      ∃ bs, dat = some bs ∧ bs.length = dl) ∧
    (∀ dl row dat, f = .sticker dl row dat →
      ∃ bs, dat = some bs ∧ bs.length = dl) := by
  unfold InputFile.readFrameCont at h
  split at h
  · simp at h
  · split at h
    · simp at h
    · dsimp only at h
      split at h
      · simp at h
      · split at h
        · split at h
          · rename_i d s4 hrd
            simp only [Prod.mk.injEq, Except.ok.injEq] at h
            rw [← h.1]
            refine ⟨?_, ?_, ?_⟩
            · rintro dl' id' row' dat' heq
              cases heq
              exact ⟨d, rfl, read_data_ok_length hrd⟩
            · rintro dl' nm' dat' heq; cases heq
            · rintro dl' row' dat' heq; cases heq
          · simp at h
        · split at h
          · rename_i d s4 hrd
            simp only [Prod.mk.injEq, Except.ok.injEq] at h
            rw [← h.1]
            refine ⟨?_, ?_, ?_⟩
            · rintro dl' id' row' dat' heq; cases heq
            · rintro dl' nm' dat' heq
              cases heq
              exact ⟨d, rfl, read_data_ok_length hrd⟩
            · rintro dl' row' dat' heq; cases heq
          · simp at h
        · split at h
          · rename_i d s4 hrd
            simp only [Prod.mk.injEq, Except.ok.injEq] at h
            rw [← h.1]
            refine ⟨?_, ?_, ?_⟩
            · rintro dl' id' row' dat' heq; cases heq
            · rintro dl' nm' dat' heq; cases heq
            · rintro dl' row' dat' heq
              cases heq
              exact ⟨d, rfl, read_data_ok_length hrd⟩
          · simp at h
        · simp at h
        · rename_i hna hnav hns hnh
          simp only [Prod.mk.injEq, Except.ok.injEq] at h
          rw [← h.1]
          refine ⟨?_, ?_, ?_⟩
          · rintro dl' id' row' dat' heq
            exact absurd heq (hna dl' id' row' dat')
          · rintro dl' nm' dat' heq
            exact absurd heq (hnav dl' nm' dat')
          · rintro dl' row' dat' heq
            exact absurd heq (hns dl' row' dat')

theorem read_frame_blob {o : Oracle} {s s' : InputFile} {f : Frame}
    (h : InputFile.read_frame o s = (.ok f, s')) :
    (∀ dl id row dat, f = .attachment dl id row dat →
      ∃ bs, dat = some bs ∧ bs.length = dl) ∧
    (∀ dl nm dat, f = .avatar dl nm dat →
      ∃ bs, dat = some bs ∧ bs.length = dl) ∧
    (∀ dl row dat, f = .sticker dl row dat →
      ∃ bs, dat = some bs ∧ bs.length = dl) := by
  unfold InputFile.read_frame at h
  split at h
  · simp at h
  · dsimp only at h
    split at h
    · simp at h
    · split at h
      · simp at h
      · split at h
        · simp at h
        · exact readFrameCont_blob h

/-- C5: the blob body read of an Attachment, Avatar or Sticker frame
first feeds the current IV into the HMAC accumulator, then reads and
decrypts exactly D encrypted bytes, verifies the 10-byte trailing MAC,
increments the IV and advances the byte counter by D + 10; every
Attachment, Avatar or Sticker frame returned by `read_frame` carries an
attached body of exactly its declared length. -/
theorem claim_C5 :
    (∀ (o : Oracle) (s : InputFile) (D : Nat) (d2 : Decrypter),
      D + LENGTH_HMAC ≤ s.input.length →
      Decrypter.verify_mac o
        (Decrypter.decrypt o s.decrypter.mac_update_with_iv (s.input.take D)).2
        ((s.input.drop D).take LENGTH_HMAC) = .ok d2 →
      InputFile.read_data o s D true =
        (.ok (Decrypter.decrypt o s.decrypter.mac_update_with_iv
                (s.input.take D)).1,
         { s with input := (s.input.drop D).drop LENGTH_HMAC
                  decrypter := d2.increase_iv
                  count_byte := s.count_byte + D + LENGTH_HMAC }) ∧
      (Decrypter.decrypt o s.decrypter.mac_update_with_iv
        (s.input.take D)).1.length = D ∧
      (Decrypter.decrypt o s.decrypter.mac_update_with_iv
        (s.input.take D)).2.hmacAcc =
        s.decrypter.hmacAcc ++ s.decrypter.iv ++ s.input.take D) ∧
    (∀ (o : Oracle) (s s' : InputFile) (f : Frame),
      InputFile.read_frame o s = (.ok f, s') →
      (∀ dl id row dat, f = .attachment dl id row dat →
        ∃ bs, dat = some bs ∧ bs.length = dl) ∧
      (∀ dl nm dat, f = .avatar dl nm dat →
        ∃ bs, dat = some bs ∧ bs.length = dl) ∧
      (∀ dl row dat, f = .sticker dl row dat →
        ∃ bs, dat = some bs ∧ bs.length = dl)) := by
  constructor
  · intro o s D d2 hroom hver
    refine ⟨read_data_attachment_eq o s D d2 hroom hver, ?_, rfl⟩
    rw [decrypt_fst_length, List.length_take]
    omega
  · intro o s s' f h
    exact read_frame_blob h

/-- C5 witness: a concrete 3-byte blob body is read, decrypted and
returned with exactly 3 bytes. -/
theorem claim_C5_witness :
    (Decrypter.decrypt oracle0 fileBlob.decrypter.mac_update_with_iv
      (fileBlob.input.take 3)).1.length = 3 :=
  ((claim_C5.1 oracle0 fileBlob 3
    (Decrypter.decrypt oracle0 fileBlob.decrypter.mac_update_with_iv
      (fileBlob.input.take 3)).2 (by decide) rfl).2.1)

theorem read_data_ok_count {o : Oracle} {s : InputFile} {n : Nat}
    {d : List Nat} {s' : InputFile}
    (h : InputFile.read_data o s n true = (.ok d, s')) :
    s'.count_byte = s.count_byte + n + LENGTH_HMAC := by
  unfold InputFile.read_data at h
  dsimp only at h
  split at h
  · simp at h
  · split at h
    · simp at h
    · split at h
      · simp at h
      · simp only [Prod.mk.injEq, Except.ok.injEq] at h
        rw [← h.2]
        simp

theorem read_data_count_mono {o : Oracle} {s : InputFile} {n : Nat} {b : Bool}
    {res : Except Err (List Nat)} {s' : InputFile}
    (h : InputFile.read_data o s n b = (res, s')) :
    s.count_byte ≤ s'.count_byte := by
  unfold InputFile.read_data at h
  dsimp only at h
  split at h
  · rw [Prod.mk.injEq] at h
    rw [← h.2]
  · split at h
    · rw [Prod.mk.injEq] at h
      rw [← h.2]
    · split at h
      · rw [Prod.mk.injEq] at h
        rw [← h.2]
      · rw [Prod.mk.injEq] at h
        rw [← h.2]
        dsimp only
        split <;> omega

theorem readFrameCont_ok_count {o : Oracle} {s2 : InputFile} {len : Nat}
    {data : List Nat} {f : Frame} {s' : InputFile}
    (h : InputFile.readFrameCont o s2 len data = (.ok f, s')) :
    (noBlob f → s'.count_byte = s2.count_byte + 4 + len) ∧
    (∀ dl id row dat, f = .attachment dl id row dat →
      s'.count_byte = s2.count_byte + 4 + len + dl + LENGTH_HMAC) ∧
    (∀ dl nm dat, f = .avatar dl nm dat →
      s'.count_byte = s2.count_byte + 4 + len + dl + LENGTH_HMAC) ∧
    (∀ dl row dat, f = .sticker dl row dat →
      s'.count_byte = s2.count_byte + 4 + len + dl + LENGTH_HMAC) := by
  unfold InputFile.readFrameCont at h
  split at h
  · simp at h
  · split at h
    · simp at h
    · dsimp only at h
      split at h
      · simp at h
      · split at h
        · split at h
          · rename_i d s4 hrd
            have hc := read_data_ok_count hrd
            simp only [Prod.mk.injEq, Except.ok.injEq] at h
            rw [← h.1]
            refine ⟨fun hnb => absurd hnb (by simp [noBlob]), ?_, ?_, ?_⟩
            · rintro dl' id' row' dat' heq
              cases heq
              rw [← h.2]
              simp only at hc
              simp [hc]
            · rintro dl' nm' dat' heq; cases heq
            · rintro dl' row' dat' heq; cases heq
          · simp at h
        · split at h
          · rename_i d s4 hrd
            have hc := read_data_ok_count hrd
            simp only [Prod.mk.injEq, Except.ok.injEq] at h
            rw [← h.1]
            refine ⟨fun hnb => absurd hnb (by simp [noBlob]), ?_, ?_, ?_⟩
            · rintro dl' id' row' dat' heq; cases heq
            · rintro dl' nm' dat' heq
              cases heq
              rw [← h.2]
              simp [hc]
            · rintro dl' row' dat' heq; cases heq
          · simp at h
        · split at h
          · rename_i d s4 hrd
            have hc := read_data_ok_count hrd
            simp only [Prod.mk.injEq, Except.ok.injEq] at h
            rw [← h.1]
            refine ⟨fun hnb => absurd hnb (by simp [noBlob]), ?_, ?_, ?_⟩
            · rintro dl' id' row' dat' heq; cases heq
            · rintro dl' nm' dat' heq; cases heq
            · rintro dl' row' dat' heq
              cases heq
              rw [← h.2]
              simp [hc]
          · simp at h
        · simp at h
        · rename_i hna hnav hns hnh
          simp only [Prod.mk.injEq, Except.ok.injEq] at h
          rw [← h.1]
          refine ⟨?_, ?_, ?_, ?_⟩
          · intro _
            rw [← h.2]
          · rintro dl' id' row' dat' heq
            exact absurd heq (hna dl' id' row' dat')
          · rintro dl' nm' dat' heq
            exact absurd heq (hnav dl' nm' dat')
          · rintro dl' row' dat' heq
            exact absurd heq (hns dl' row' dat')

theorem readFrameCont_count_mono {o : Oracle} {s2 : InputFile} {len : Nat}
    {data : List Nat} {res : Except Err Frame} {s' : InputFile}
    (h : InputFile.readFrameCont o s2 len data = (res, s')) :
    s2.count_byte ≤ s'.count_byte := by
  unfold InputFile.readFrameCont at h
  split at h
  · rw [Prod.mk.injEq] at h
    rw [← h.2]
  · split at h
    · rw [Prod.mk.injEq] at h
      rw [← h.2]
    · dsimp only at h
      split at h
      · rw [Prod.mk.injEq] at h
        rw [← h.2]
        dsimp only
        omega
      · split at h
        · split at h <;>
          · rename_i hrd
            have := read_data_count_mono hrd
            rw [Prod.mk.injEq] at h
            rw [← h.2]
            simp only at this ⊢
            omega
        · split at h <;>
          · rename_i hrd
            have := read_data_count_mono hrd
            rw [Prod.mk.injEq] at h
            rw [← h.2]
            simp only at this ⊢
            omega
        · split at h <;>
          · rename_i hrd
            have := read_data_count_mono hrd
            rw [Prod.mk.injEq] at h
            rw [← h.2]
            simp only at this ⊢
            omega
        · rw [Prod.mk.injEq] at h
          rw [← h.2]
          dsimp only
          omega
        · rw [Prod.mk.injEq] at h
          rw [← h.2]
          dsimp only
          omega

theorem read_frame_count_mono {o : Oracle} {s : InputFile}
    {res : Except Err Frame} {s' : InputFile}
    (h : InputFile.read_frame o s = (res, s')) :
    s.count_byte ≤ s'.count_byte := by
  unfold InputFile.read_frame at h
  split at h
  · rw [Prod.mk.injEq] at h
    rw [← h.2]
  · dsimp only at h
    split at h
    · rw [Prod.mk.injEq] at h
      rw [← h.2]
    · split at h
      · rw [Prod.mk.injEq] at h
        rw [← h.2]
      · split at h
        · rw [Prod.mk.injEq] at h
          rw [← h.2]
        · have hm := readFrameCont_count_mono h
          exact hm

theorem next_count_mono {o : Oracle} {s : InputFile}
    {r : Option (Except Err Frame)} {s' : InputFile}
    (h : InputFile.next o s = (r, s')) :
    s.count_byte ≤ s'.count_byte := by
  unfold InputFile.next at h
  rcases hrf : InputFile.read_frame o s with ⟨res, s''⟩
  rw [hrf] at h
  have hm := read_frame_count_mono hrf
  cases res with
  | ok f =>
    cases f <;>
      (rw [Prod.mk.injEq] at h; rw [← h.2]; exact hm)
  | error e =>
    rw [Prod.mk.injEq] at h
    rw [← h.2]
    exact hm

theorem inputFile_new_count {o : Oracle} {input password : List Nat}
    {vm : Bool} {fb : Nat} {s : InputFile}
    (h : InputFile.new o input password vm fb = .ok s) :
    s.count_byte = u32FromBeBytes (input.take 4) + 4 + 16 := by
  unfold InputFile.new at h
  split at h
  · cases h
  · rename_i lenB r1 heq
    obtain ⟨-, htake, -, -⟩ := readExact_ok heq
    dsimp only at h
    split at h
    · cases h
    · split at h
      · cases h
      · simp only [Except.ok.injEq] at h
        rw [← h, ← htake]
      · cases h

/-- C8: the byte counter starts at L0 + 4 + 16 where L0 is the header
frame's payload length; each successfully read frame of decrypted
length L adds exactly 4 + L, a blob body of declared length D adds
exactly D + 10 on top (and the blob read alone adds D + 10); the
counter never decreases under `read_frame`, `read_data` or `next`. -/
theorem claim_C8 :
    (∀ (o : Oracle) (input password : List Nat) (vm : Bool) (fb : Nat)
        (s : InputFile),
      InputFile.new o input password vm fb = .ok s →
      s.count_byte = u32FromBeBytes (input.take 4) + 4 + 16) ∧
    (∀ (o : Oracle) (s2 : InputFile) (len : Nat) (data : List Nat) (f : Frame)
        (s' : InputFile),
      InputFile.readFrameCont o s2 len data = (.ok f, s') →
      (noBlob f → s'.count_byte = s2.count_byte + 4 + len) ∧
      (∀ dl id row dat, f = .attachment dl id row dat →
        s'.count_byte = s2.count_byte + 4 + len + dl + LENGTH_HMAC) ∧
      (∀ dl nm dat, f = .avatar dl nm dat →
        s'.count_byte = s2.count_byte + 4 + len + dl + LENGTH_HMAC) ∧
      (∀ dl row dat, f = .sticker dl row dat →
        s'.count_byte = s2.count_byte + 4 + len + dl + LENGTH_HMAC)) ∧
    (∀ (o : Oracle) (s : InputFile) (n : Nat) (d : List Nat) (s' : InputFile),
      InputFile.read_data o s n true = (.ok d, s') →
      s'.count_byte = s.count_byte + n + LENGTH_HMAC) ∧
    (∀ (o : Oracle) (s : InputFile) (res : Except Err Frame) (s' : InputFile),
      InputFile.read_frame o s = (res, s') → s.count_byte ≤ s'.count_byte) ∧
    (∀ (o : Oracle) (s : InputFile) (n : Nat) (b : Bool)
        (res : Except Err (List Nat)) (s' : InputFile),
      InputFile.read_data o s n b = (res, s') →
      s.count_byte ≤ s'.count_byte) ∧
    (∀ (o : Oracle) (s : InputFile) (r : Option (Except Err Frame))
        (s' : InputFile),
      InputFile.next o s = (r, s') → s.count_byte ≤ s'.count_byte) :=
  ⟨fun _ _ _ _ _ _ h => inputFile_new_count h,
   fun _ _ _ _ _ _ h => readFrameCont_ok_count h,
   fun _ _ _ _ _ h => read_data_ok_count h,
   fun _ _ _ _ h => read_frame_count_mono h,
   fun _ _ _ _ _ _ h => read_data_count_mono h,
   fun _ _ _ _ h => next_count_mono h⟩

/-- C8 witness: bootstrapping a concrete header stream of payload
length 0 initializes the byte counter to 0 + 4 + 16. -/
theorem claim_C8_witness :
    fileHdr.count_byte =
      u32FromBeBytes (([0, 0, 0, 0] : List Nat).take 4) + 4 + 16 :=
  claim_C8.1 oracleHdr [0, 0, 0, 0] [] true 0 fileHdr rfl

end SignalBackup
